import Mathlib

/-!
# A verification development for the `oasm-core` instruction runtime

This file gives a shallow embedding, in Lean 4, of the parts of the
`oasm-core` Rust crate that the specification talks about:

* the native type system (`src/crates/oasm-core/src/types/mod.rs`);
* the execution context (`src/crates/oasm-core/src/context/mod.rs`) and its
  symbol table (`src/crates/oasm-core/src/symbol_table.rs`);
* the instruction executor with its handler registry and batch loop
  (`src/crates/oasm-core/src/executor/mod.rs`);
* the hierarchical rule engine (`src/crates/oasm-core/src/rules/mod.rs`);
* the validation report combinator (`src/crates/oasm-core/src/validators/mod.rs`).

Modelling conventions, uniform across the file:

* Rust `HashMap<String, V>` becomes an association list `List (String × V)`
  whose `insert` replaces an existing binding, as `HashMap::insert` does.
  Map iteration order is never observable in the embedded functions.
* Rust `f32`/`f64` payloads are carried opaquely as their IEEE bit patterns
  (a `Nat`); no embedded function ever computes with them.
* Wall-clock time (`Instant`, `Utc::now`) is replaced by an explicit `now`
  parameter; `duration_ms` fields measured by wall clock are modelled as `0`.
* Functions that take `&mut self` in Rust return the new state explicitly;
  fallible ones return `Except` together with the state as it stands when the
  error is produced, so that mutations made before an error are kept, exactly
  as with a Rust `&mut` borrow.
-/

namespace Oasm

/-! ## Type system (`types/mod.rs`)

`OasmType` mirrors the Rust enum.  The Rust `Struct` variant carries
`Vec<Field>` and the `Enum` variant carries `Vec<Variant>` where a `Variant`
holds `Option<Vec<Field>>`; these are encoded as the mutually inductive
`FieldList` and `VariantList` (a cons list is a `Vec`, and the two cons
constructors of `VariantList` encode `Option<Vec<Field>>` with `None` and
`Some` kept distinct), which preserves the derived structural equality of the
Rust types. -/

mutual
inductive OasmType where
  | U8 | U16 | U32 | U64 | I8 | I16 | I32 | I64 | F32 | F64
  | Bool | Char | String
  | Array (element_type : OasmType) (size : Nat)
  | Struct (name : String) (fields : FieldList)
  | Enum (name : String) (variants : VariantList)
  | Vector2 | Vector3 | Vector4 | Matrix3x3 | Matrix4x4 | BoundingBox | Mesh
  | Object (object_type : String)
  | Void | Unknown
deriving DecidableEq

inductive FieldList where
  | nil
  | cons (name : String) (field_type : OasmType) (rest : FieldList)
deriving DecidableEq

inductive VariantList where
  | nil
  | consNone (name : String) (rest : VariantList)
  | consSome (name : String) (fields : FieldList) (rest : VariantList)
deriving DecidableEq
end

/-- Runtime values (`Value` in `types/mod.rs`).  Numeric payloads are
`Nat`/`Int`; float payloads are IEEE bit patterns carried as `Nat`; the
`HashMap` payloads of `Struct`, `Enum` and `Object` are association lists. -/
inductive Value where
  | U8 (v : Nat)
  | U16 (v : Nat)
  | U32 (v : Nat)
  | U64 (v : Nat)
  | I8 (v : Int)
  | I16 (v : Int)
  | I32 (v : Int)
  | I64 (v : Int)
  | F32 (bits : Nat)
  | F64 (bits : Nat)
  | Bool (v : Bool)
  | Char (v : Char)
  | String (v : String)
  | Array (elems : List Value)
  | Struct (name : String) (fields : List (String × Value))
  | Enum (name : String) (variant : String) (fields : Option (List (String × Value)))
  | Vector2 (v : Nat × Nat)
  | Vector3 (v : Nat × Nat × Nat)
  | Vector4 (v : Nat × Nat × Nat × Nat)
  | Matrix3x3 (rows : List (List Nat))
  | Matrix4x4 (rows : List (List Nat))
  | BoundingBox (min max : Nat × Nat × Nat)
  | Mesh (vertices : List (Nat × Nat × Nat)) (faces : List (List Nat))
  | Object (id : String) (object_type : String) (properties : List (String × Value))
  | Void

/-- The arithmetic / comparison / logical / geometric / object operations
(`Operation` in `types/mod.rs`). -/
inductive Operation where
  | Add | Subtract | Multiply | Divide | Modulo
  | Equal | NotEqual | LessThan | LessOrEqual | GreaterThan | GreaterOrEqual
  | And | Or | Not
  | Dot | Cross | MatrixMultiply
  | PropertyAccess | MethodCall
deriving DecidableEq

/-- Type errors (`TypeError` in `types/mod.rs`). -/
inductive TypeError where
  | TypeMismatch (expected found : OasmType)
  | UndefinedVariable (name : String)
  | UndefinedField (struct_name field_name : String)
  | InvalidOperation (op : Operation) (operands : List OasmType)
  | InvalidCast (from_ to_ : OasmType)
deriving DecidableEq

/-- `NativeTypeChecker::infer_type`.  For a non-empty array the element type
comes from the first element; an empty array infers `Unknown` element type.
`Struct`/`Enum` values infer types with empty field/variant lists, as the
Rust code fills in `vec![]`. -/
def infer_type : Value → OasmType
  | .U8 _ => .U8
  | .U16 _ => .U16
  | .U32 _ => .U32
  | .U64 _ => .U64
  | .I8 _ => .I8
  | .I16 _ => .I16
  | .I32 _ => .I32
  | .I64 _ => .I64
  | .F32 _ => .F32
  | .F64 _ => .F64
  | .Bool _ => .Bool
  | .Char _ => .Char
  | .String _ => .String
  | .Array [] => .Array .Unknown 0
  | .Array (v :: rest) => .Array (infer_type v) (v :: rest).length
  | .Struct name _ => .Struct name .nil
  | .Enum name _ _ => .Enum name .nil
  | .Vector2 _ => .Vector2
  | .Vector3 _ => .Vector3
  | .Vector4 _ => .Vector4
  | .Matrix3x3 _ => .Matrix3x3
  | .Matrix4x4 _ => .Matrix4x4
  | .BoundingBox _ _ => .BoundingBox
  | .Mesh _ _ => .Mesh
  | .Object _ object_type _ => .Object object_type
  | .Void => .Void

/-- The widening arms of `NativeTypeChecker::can_cast` (every arm of the Rust
match below the `(a, b) if a == b => true` guard arm, plus its catch-all). -/
def can_cast_widen : OasmType → OasmType → Bool
  | .U8, .U16 | .U8, .U32 | .U8, .U64 => true
  | .U16, .U32 | .U16, .U64 => true
  | .U32, .U64 => true
  | .I8, .I16 | .I8, .I32 | .I8, .I64 => true
  | .I16, .I32 | .I16, .I64 => true
  | .I32, .I64 => true
  | .F32, .F64 => true
  | .U8, .F32 | .U16, .F32 | .U32, .F32 | .I8, .F32 | .I16, .F32 | .I32, .F32 => true
  | .U8, .F64 | .U16, .F64 | .U32, .F64 | .I8, .F64 | .I16, .F64 | .I32, .F64 => true
  | _, _ => false

/-- `NativeTypeChecker::can_cast`.  The Rust function is a single match whose
first arm is the guard `(a, b) if a == b => true`; the remaining arms are
`can_cast_widen`. -/
def can_cast (from_ to_ : OasmType) : Bool :=
  if from_ = to_ then true
  else can_cast_widen from_ to_

/-- `NativeTypeChecker::check_assignment`: `Ok` iff the types are equal or the
value type casts to the target type. -/
def check_assignment (target value : OasmType) : Except TypeError Unit :=
  if target = value then .ok ()
  else if can_cast value target then .ok ()
  else .error (.TypeMismatch target value)

/-- The shared arithmetic arm of `NativeTypeChecker::validate_operation`
(the Rust match handles `Add | Subtract | Multiply | Divide | Modulo` in one
arm): two operands required, and only the six same-type numeric pairs
`F64/F32/I64/I32/U64/U32` are accepted. -/
def validate_arith (op : Operation) (operands : List OasmType) : Except TypeError OasmType :=
  match operands with
  | [a, b] =>
    match a, b with
    | .F64, .F64 => .ok .F64
    | .F32, .F32 => .ok .F32
    | .I64, .I64 => .ok .I64
    | .I32, .I32 => .ok .I32
    | .U64, .U64 => .ok .U64
    | .U32, .U32 => .ok .U32
    | _, _ => .error (.InvalidOperation op operands)
  | _ => .error (.InvalidOperation op operands)

/-- `NativeTypeChecker::validate_operation`. -/
def validate_operation (op : Operation) (operands : List OasmType) : Except TypeError OasmType :=
  match op with
  | .Add | .Subtract | .Multiply | .Divide | .Modulo => validate_arith op operands
  | .Equal | .NotEqual | .LessThan | .LessOrEqual | .GreaterThan | .GreaterOrEqual =>
    match operands with
    | [_, _] => .ok .Bool
    | _ => .error (.InvalidOperation op operands)
  | .And | .Or =>
    match operands with
    | [.Bool, .Bool] => .ok .Bool
    | _ => .error (.InvalidOperation op operands)
  | .Not =>
    match operands with
    | [.Bool] => .ok .Bool
    | _ => .error (.InvalidOperation op operands)
  | .Dot =>
    match operands with
    | [.Vector3, .Vector3] => .ok .F64
    | _ => .error (.InvalidOperation op operands)
  | .Cross =>
    match operands with
    | [.Vector3, .Vector3] => .ok .Vector3
    | _ => .error (.InvalidOperation op operands)
  | .MatrixMultiply =>
    match operands with
    | [.Matrix4x4, .Vector4] => .ok .Vector4
    | [.Matrix4x4, .Matrix4x4] => .ok .Matrix4x4
    | _ => .error (.InvalidOperation op operands)
  | .PropertyAccess | .MethodCall => .ok .Unknown

/-! ## Association lists standing in for `HashMap<K, V>` -/

/-- `HashMap::get`. -/
def alFind {K V : Type} [DecidableEq K] : List (K × V) → K → Option V
  | [], _ => none
  | (k, v) :: rest, key => if k = key then some v else alFind rest key

/-- `HashMap::insert`: replaces the binding when the key is present. -/
def alInsert {K V : Type} [DecidableEq K] : List (K × V) → K → V → List (K × V)
  | [], key, value => [(key, value)]
  | (k, v) :: rest, key, value =>
    if k = key then (key, value) :: rest else (k, v) :: alInsert rest key value

/-- `HashMap::get_mut` followed by a field update. -/
def alUpdate {K V : Type} [DecidableEq K] : List (K × V) → K → (V → V) → List (K × V)
  | [], _, _ => []
  | (k, v) :: rest, key, f =>
    if k = key then (k, f v) :: rest else (k, v) :: alUpdate rest key f

/-! ## Execution context (`context/mod.rs`, `symbol_table.rs`)

`RunId` (a UUID) is opaque and modelled as a `Nat` chosen at construction;
`Seq(u64)` is a `Nat`; `DateTime<Utc>` timestamps are `Nat`s supplied through
an explicit `now` parameter wherever the Rust code calls `Utc::now()`. -/

/-- `Actor` in `context/mod.rs`; the AI confidence (`f64`) is carried as bits. -/
inductive Actor where
  | Human (username : String)
  | Automation (rule_id : String)
  | AI (model : String) (confidence : Nat)
  | System

/-- `Variable` in `context/mod.rs`. -/
structure Variable where
  name : String
  var_type : OasmType
  value : Option Value
  mutable : Bool

/-- `Object` in `context/mod.rs`. -/
structure Object where
  id : String
  object_type : String
  properties : List (String × Value)
  created : Nat

/-- `Scope` in `context/mod.rs`: `variables` is a `HashMap<String, Variable>`. -/
structure Scope where
  name : String
  variables_ : List (String × Variable)

/-- `Scope::new`. -/
def Scope.new (name : String) : Scope := ⟨name, []⟩

/-- `SymbolType` in `symbol_table.rs`. -/
inductive SymbolType where
  | Object | Variable | Macro | Constant
deriving DecidableEq

/-- `SymbolMetadata` in `symbol_table.rs`. -/
structure SymbolMetadata where
  name : String
  symbol_type : SymbolType
  data_type : OasmType
  created_at : Nat
  last_modified : Nat
  source_line : Nat

/-- `SymbolTable` in `symbol_table.rs`. -/
structure SymbolTable where
  symbols : List (String × SymbolMetadata)

/-- `SymbolTable::new`. -/
def SymbolTable.new : SymbolTable := ⟨[]⟩

/-- `SymbolTable::insert` (keyed by `metadata.name`). -/
def SymbolTable.insert (t : SymbolTable) (metadata : SymbolMetadata) : SymbolTable :=
  ⟨alInsert t.symbols metadata.name metadata⟩

/-- `SymbolTable::update_timestamp`: sets `last_modified` when the name is
present, and does nothing otherwise. -/
def SymbolTable.update_timestamp (t : SymbolTable) (name : String) (now : Nat) : SymbolTable :=
  ⟨alUpdate t.symbols name (fun s => { s with last_modified := now })⟩

/-- `ContextError` in `context/mod.rs`. -/
inductive ContextError where
  | ScopeStackEmpty
  | VariableAlreadyDefined (name : String)
  | VariableNotFound (name : String)
  | ObjectNotFound (id : String)
deriving DecidableEq

/-- `ExecutionContext` in `context/mod.rs`.  The scope stack is in `Vec`
order: the global scope first, the innermost scope last. -/
structure ExecutionContext where
  run_id : Nat
  seq : Nat
  actor : Actor
  working_directory : String
  scope_stack : List Scope
  objects : List (String × Object)
  symbol_table : SymbolTable
  created : Nat

/-- `ExecutionContext::new`: fresh run id, `Seq` zero, a single scope named
`"global"`, empty object store and symbol table. -/
def ExecutionContext.new (run_id : Nat) (actor : Actor) (working_directory : String)
    (now : Nat) : ExecutionContext :=
  ⟨run_id, 0, actor, working_directory, [Scope.new "global"], [], SymbolTable.new, now⟩

/-- `ExecutionContext::next_seq`: `Seq(self.0 + 1)` (the `u64` increment,
far from overflow in any run, is modelled on `Nat`). -/
def next_seq (ctx : ExecutionContext) : ExecutionContext :=
  { ctx with seq := ctx.seq + 1 }

/-- `ContextManager::push_scope`: always succeeds. -/
def push_scope (ctx : ExecutionContext) (name : String) : ExecutionContext :=
  { ctx with scope_stack := ctx.scope_stack ++ [Scope.new name] }

/-- `ContextManager::pop_scope`: refuses to pop when at most one scope
remains. -/
def pop_scope (ctx : ExecutionContext) :
    Except ContextError (Scope × ExecutionContext) :=
  if ctx.scope_stack.length ≤ 1 then .error .ScopeStackEmpty
  else
    match ctx.scope_stack.getLast? with
    | some s => .ok (s, { ctx with scope_stack := ctx.scope_stack.dropLast })
    | none => .error .ScopeStackEmpty

/-- `ContextManager::declare_variable`: checks only the innermost scope, then
inserts there and mirrors the symbol into the symbol table.  The Rust code
unwraps the innermost scope; the stack is nonempty by construction, and the
unreachable empty case is mapped to `ScopeStackEmpty`. -/
def declare_variable (ctx : ExecutionContext) (name : String) (var_type : OasmType)
    (mutable : Bool) (now : Nat) : Except ContextError ExecutionContext :=
  match ctx.scope_stack.getLast? with
  | none => .error .ScopeStackEmpty
  | some scope =>
    if (alFind scope.variables_ name).isSome then
      .error (.VariableAlreadyDefined name)
    else
      let scope1 : Scope :=
        { scope with variables_ := alInsert scope.variables_ name ⟨name, var_type, none, mutable⟩ }
      .ok { ctx with
              scope_stack := ctx.scope_stack.dropLast ++ [scope1],
              symbol_table := ctx.symbol_table.insert ⟨name, .Variable, var_type, now, now, 0⟩ }

/-- Innermost-to-outermost search-and-set over the *reversed* scope stack
(the body of the `for scope in self.scope_stack.iter_mut().rev()` loop of
`assign_variable`): `none` when no scope holds the name. -/
def assignInScopesRev (name : String) (value : Value) :
    List Scope → Option (List Scope)
  | [] => none
  | s :: rest =>
    if (alFind s.variables_ name).isSome then
      some ({ s with variables_ :=
                alUpdate s.variables_ name (fun v => { v with value := some value }) } :: rest)
    else
      (assignInScopesRev name value rest).map (s :: ·)

/-- `ContextManager::assign_variable`: innermost-first search; on success the
variable's value is set and the symbol table timestamp updated; otherwise
`VariableNotFound`. -/
def assign_variable (ctx : ExecutionContext) (name : String) (value : Value)
    (now : Nat) : Except ContextError ExecutionContext :=
  match assignInScopesRev name value ctx.scope_stack.reverse with
  | some rev1 =>
    .ok { ctx with
            scope_stack := rev1.reverse,
            symbol_table := ctx.symbol_table.update_timestamp name now }
  | none => .error (.VariableNotFound name)

/-- Innermost-to-outermost lookup over the reversed scope stack (the loop of
`get_variable`). -/
def getVarRev (name : String) : List Scope → Option Variable
  | [] => none
  | s :: rest =>
    match alFind s.variables_ name with
    | some v => some v
    | none => getVarRev name rest

/-- `ContextManager::get_variable`: innermost-first search. -/
def get_variable (ctx : ExecutionContext) (name : String) :
    Except ContextError Variable :=
  match getVarRev name ctx.scope_stack.reverse with
  | some v => .ok v
  | none => .error (.VariableNotFound name)

/-- Rust `format!("{:04}", n)`: decimal digits left-padded with zeros to at
least width 4. -/
def pad4 (n : Nat) : String :=
  let s := toString n
  if s.length < 4 then String.mk (List.replicate (4 - s.length) '0') ++ s else s

/-- `ContextManager::create_object`: id is the given one or
`{object_type}_{seq:04}`; the object is inserted into the flat store
(`HashMap::insert`, replacing any object under the same id) and mirrored into
the symbol table.  The Rust function returns `Ok` unconditionally, so it is
modelled as a plain pair. -/
def create_object (ctx : ExecutionContext) (object_type : String)
    (id : Option String) (now : Nat) : String × ExecutionContext :=
  let object_id := id.getD (object_type ++ "_" ++ pad4 ctx.seq)
  let obj : Object := ⟨object_id, object_type, [], now⟩
  (object_id,
   { ctx with
       objects := alInsert ctx.objects object_id obj,
       symbol_table := ctx.symbol_table.insert
         ⟨object_id, .Object, .Object object_type, now, now, 0⟩ })

/-- `ContextManager::get_object`. -/
def get_object (ctx : ExecutionContext) (id : String) : Except ContextError Object :=
  match alFind ctx.objects id with
  | some obj => .ok obj
  | none => .error (.ObjectNotFound id)

/-! ## Parser data types (`parser/mod.rs`) — only the instruction shape is
needed by the executor claims. -/

/-- `Operand` in `parser/mod.rs`. -/
inductive Operand where
  | Identifier (name : String)
  | Literal (value : Value)
  | Property (object property : String)
  | Array (elems : List Operand)
  | Assignment (target : String) (value : Operand)

/-- `Instruction` in `parser/mod.rs`. -/
structure Instruction where
  mnemonic : String
  operands : List Operand
  line_number : Nat

/-! ## Instruction executor (`executor/mod.rs`)

Handlers take `&mut ExecutionContext`; they are modelled as functions
returning the new context in both the `Ok` and the `Err` case, so mutations
made before an error persist exactly as under a `&mut` borrow.  Wall-clock
durations are modelled as `0`. -/

/-- `ExecutionOutcome` in `executor/mod.rs`. -/
inductive ExecutionOutcome where
  | Success
  | Failed (reason : String)
  | PartialSuccess (completed total : Nat)
deriving DecidableEq

/-- `ExecutionResult` in `executor/mod.rs`. -/
structure ExecutionResult where
  outcome : ExecutionOutcome
  output : Option Value
  modified_objects : List String
  duration_ms : Nat

/-- `BatchResult` in `executor/mod.rs`. -/
structure BatchResult where
  outcome : ExecutionOutcome
  individual_results : List ExecutionResult
  total_duration_ms : Nat

/-- `ExecutorError` in `executor/mod.rs`.  The Rust `ContextError` and
`TypeError` variants carry the formatted message string; the embedded
variants carry the structured error the string is formatted from. -/
inductive ExecutorError where
  | ContextError (e : ContextError)
  | InvalidInstruction (instruction reason : String)
  | TypeError (variable_ : String) (error : TypeError)
  | RuntimeError (msg : String)

/-- The capability type of `InstructionHandler::execute`
(`&[Operand], &mut ExecutionContext → Result<ExecutionResult, ExecutorError>`),
with the explicit clock first. -/
def HandlerFn : Type :=
  Nat → List Operand → ExecutionContext →
    (Except ExecutorError ExecutionResult) × ExecutionContext

/-- `CreateHandler::execute`: empty operand list or a non-identifier first
operand fail `InvalidInstruction`; otherwise an object is allocated from the
first operand's name, `Seq` advances, and the new id is the output and the
sole modified object.  Operands beyond the first are ignored. -/
def createHandler : HandlerFn := fun now operands ctx =>
  match operands with
  | [] => (.error (.InvalidInstruction "CREATE" "Missing object type"), ctx)
  | op :: _ =>
    match op with
    | .Identifier name =>
      let p := create_object ctx name none now
      (.ok ⟨.Success, some (.String p.1), [p.1], 0⟩, next_seq p.2)
    | _ => (.error (.InvalidInstruction "CREATE" "Expected identifier"), ctx)

/-- `SetHandler::execute`: requires the first operand to be an assignment
whose value is a literal; the type check against `check_assignment` runs only
when the target variable already exists (`if let Ok(var) = ctx.get_variable`);
then `assign_variable` runs and its error propagates via `?`. -/
def setHandler : HandlerFn := fun now operands ctx =>
  match operands with
  | [] => (.error (.InvalidInstruction "SET" "Missing assignment"), ctx)
  | op :: _ =>
    match op with
    | .Assignment target value =>
      match value with
      | .Literal v =>
        let typeCheck : Except ExecutorError Unit :=
          match get_variable ctx target with
          | .ok var =>
            match check_assignment var.var_type (infer_type v) with
            | .ok _ => .ok ()
            | .error type_err => .error (.TypeError target type_err)
          | .error _ => .ok ()
        match typeCheck with
        | .error e => (.error e, ctx)
        | .ok _ =>
          match assign_variable ctx target v now with
          | .error e => (.error (.ContextError e), ctx)
          | .ok ctx1 => (.ok ⟨.Success, none, [], 0⟩, next_seq ctx1)
      | _ => (.error (.RuntimeError "Cannot extract value"), ctx)
    | _ => (.error (.InvalidInstruction "SET" "Expected assignment"), ctx)

/-- `ExtrudeHandler::execute`: needs at least two operands, otherwise a
trivial success (the geometry itself is elided in the source). -/
def extrudeHandler : HandlerFn := fun _ operands ctx =>
  if operands.length < 2 then
    (.error (.InvalidInstruction "EXTRUDE" "Missing operands (expected: object, distance)"), ctx)
  else (.ok ⟨.Success, none, [], 0⟩, ctx)

/-- The shared body of `FilletHandler`, `MoveHandler`, `RotateHandler`,
`ScaleHandler`, `BooleanHandler`, `ValidateHandler` and `ExportHandler`:
an unconditional empty success. -/
def trivialHandler : HandlerFn := fun _ _ ctx =>
  (.ok ⟨.Success, none, [], 0⟩, ctx)

/-- Rust `str::to_uppercase`, modelled per character (all mnemonics are
ASCII). -/
def toUppercase (s : String) : String := ⟨s.data.map Char.toUpper⟩

/-- `InstructionRegistry::register` (keys are uppercased). -/
def registryRegister (reg : List (String × HandlerFn)) (mnemonic : String)
    (handler : HandlerFn) : List (String × HandlerFn) :=
  alInsert reg (toUppercase mnemonic) handler

/-- `InstructionRegistry::default`: the ten built-in handlers. -/
def defaultRegistry : List (String × HandlerFn) :=
  registryRegister (registryRegister (registryRegister (registryRegister
    (registryRegister (registryRegister (registryRegister (registryRegister
      (registryRegister (registryRegister [] "CREATE" createHandler)
        "SET" setHandler)
      "EXTRUDE" extrudeHandler)
    "FILLET" trivialHandler)
    "MOVE" trivialHandler)
    "ROTATE" trivialHandler)
    "SCALE" trivialHandler)
    "BOOLEAN" trivialHandler)
    "VALIDATE" trivialHandler)
  "EXPORT" trivialHandler

/-- `InstructionRegistry::get` (lookup of the uppercased mnemonic). -/
def registryGet (reg : List (String × HandlerFn)) (mnemonic : String) :
    Option HandlerFn :=
  alFind reg (toUppercase mnemonic)

/-- `NativeExecutor::execute`: dispatch through the registry; an unregistered
mnemonic succeeds trivially with an empty result and an untouched context. -/
def executeInstruction (reg : List (String × HandlerFn)) (now : Nat)
    (instruction : Instruction) (ctx : ExecutionContext) :
    (Except ExecutorError ExecutionResult) × ExecutionContext :=
  match registryGet reg instruction.mnemonic with
  | some handler => handler now instruction.operands ctx
  | none => (.ok ⟨.Success, none, [], 0⟩, ctx)

/-- The loop body of `NativeExecutor::execute_batch`: returns the pushed
individual results, the `completed` counter (incremented per result whose
outcome is `Success`), and the context at loop exit; the first `Err` breaks
the loop and is discarded. -/
def batchLoop (reg : List (String × HandlerFn)) (now : Nat) :
    List Instruction → ExecutionContext →
      (List ExecutionResult × Nat × ExecutionContext)
  | [], ctx => ([], 0, ctx)
  | instruction :: rest, ctx =>
    match executeInstruction reg now instruction ctx with
    | (.ok result, ctx1) =>
      let p := batchLoop reg now rest ctx1
      (result :: p.1, (if result.outcome = .Success then 1 else 0) + p.2.1, p.2.2)
    | (.error _, ctx1) => ([], 0, ctx1)

/-- `NativeExecutor::execute_batch`: runs the loop, then reports `Success`
when `completed` equals the instruction count and otherwise
`PartialSuccess { completed, total }`; always returns `Ok`. -/
def execute_batch (reg : List (String × HandlerFn)) (now : Nat)
    (instructions : List Instruction) (ctx : ExecutionContext) :
    (Except ExecutorError BatchResult) × ExecutionContext :=
  let p := batchLoop reg now instructions ctx
  let outcome := if p.2.1 = instructions.length then ExecutionOutcome.Success
                 else .PartialSuccess p.2.1 instructions.length
  (.ok ⟨outcome, p.1, 0⟩, p.2.2)

/-! ## Hierarchical rule engine (`rules/mod.rs`, rule types from `lib.rs`) -/

/-- `Severity` in `lib.rs`. -/
inductive Severity where
  | Error | Warning | Info
deriving DecidableEq

/-- `RuleCategory` in `lib.rs`. -/
inductive RuleCategory where
  | Validation | Behavior | Constraint | Output
deriving DecidableEq

/-- `Condition` in `lib.rs`. -/
structure Condition where
  check_type : String
  severity : Severity
  message : String
deriving DecidableEq

/-- `Rule` in `lib.rs`. -/
structure Rule where
  id : String
  program_type : String
  category : RuleCategory
  conditions : List Condition
deriving DecidableEq

/-- `RuleLevel` in `rules/mod.rs`: `Core(0) < Domain(1) < Project(2) <
Session(3)`. -/
inductive RuleLevel where
  | Core | Domain | Project | Session
deriving DecidableEq

/-- The numeric discriminant of a `RuleLevel` (`RuleLevel::priority`, and the
value the derived `Ord` compares). -/
def RuleLevel.priority : RuleLevel → Nat
  | .Core => 0
  | .Domain => 1
  | .Project => 2
  | .Session => 3

/-- `RuleSource` in `rules/mod.rs`. -/
inductive RuleSource where
  | Builtin
  | Template (path : String)
  | ProjectConfig (path : String)
  | UserDefined (session_id : String)
deriving DecidableEq

/-- `HierarchicalRule` in `rules/mod.rs`. -/
structure HierarchicalRule where
  rule : Rule
  level : RuleLevel
  overrides : Option String
  source : RuleSource
  enabled : Bool
deriving DecidableEq

/-- `HierarchicalRuleEngine`: the id-keyed registry plus the level and
program-type indexes. -/
structure HierarchicalRuleEngine where
  rules : List (String × HierarchicalRule)
  level_index : List (RuleLevel × List String)
  program_index : List (String × List String)

/-- `HierarchicalRuleEngine::new`. -/
def HierarchicalRuleEngine.new : HierarchicalRuleEngine := ⟨[], [], []⟩

/-- `HierarchicalRuleEngine::register_rule`: inserts into the registry and
appends the id to the level and program-type index entries
(`entry(..).or_insert_with(Vec::new).push(..)`). -/
def register_rule (e : HierarchicalRuleEngine) (hrule : HierarchicalRule) :
    HierarchicalRuleEngine :=
  let rule_id := hrule.rule.id
  let level := hrule.level
  let program_type := hrule.rule.program_type
  { rules := alInsert e.rules rule_id hrule,
    level_index :=
      alInsert e.level_index level (((alFind e.level_index level).getD []) ++ [rule_id]),
    program_index :=
      alInsert e.program_index program_type
        (((alFind e.program_index program_type).getD []) ++ [rule_id]) }

/-- The descending-by-level comparator passed to the Rust stable
`sort_by(|a, b| b.level.cmp(&a.level))`. -/
def levelDescBool (a b : HierarchicalRule) : Bool :=
  decide (b.level.priority ≤ a.level.priority)

/-- `HierarchicalRuleEngine::get_resolved_rules`: gather the rules of the
program type, keep the enabled ones, sort descending by level, collect every
`overrides` target, and return the rules whose id is not a target. -/
def get_resolved_rules (e : HierarchicalRuleEngine) (program_type : String) :
    List HierarchicalRule :=
  match alFind e.program_index program_type with
  | none => []
  | some rule_ids =>
    let hrules := (rule_ids.filterMap (alFind e.rules)).filter (fun hr => hr.enabled)
    let sorted := hrules.mergeSort levelDescBool
    let overridden := sorted.filterMap (fun hr => hr.overrides)
    sorted.filter (fun hr => !(overridden.contains hr.rule.id))

/-! ## Validation reports (`validators/mod.rs`) -/

/-- `IssueSeverity` in `validators/mod.rs`. -/
inductive IssueSeverity where
  | Error | Warning | Info
deriving DecidableEq

/-- `IssueLocation` in `validators/mod.rs`. -/
structure IssueLocation where
  file : Option String
  line : Option Nat
  column : Option Nat
  object_id : Option String
deriving DecidableEq

/-- `ValidationIssue` in `validators/mod.rs`. -/
structure ValidationIssue where
  severity : IssueSeverity
  code : String
  message : String
  location : Option IssueLocation
  suggestion : Option String
deriving DecidableEq

/-- `ValidationReport` in `validators/mod.rs`. -/
structure ValidationReport where
  passed : Bool
  validator : String
  issues : List ValidationIssue
  metadata : List (String × String)
deriving DecidableEq

/-- `ValidationReport::new`: starts passing with no issues. -/
def ValidationReport.new (validator : String) : ValidationReport :=
  ⟨true, validator, [], []⟩

/-- `ValidationReport::add_issue`: an `Error` issue clears `passed`; every
issue is pushed. -/
def ValidationReport.add_issue (r : ValidationReport) (issue : ValidationIssue) :
    ValidationReport :=
  { r with
      passed := if issue.severity = .Error then false else r.passed,
      issues := r.issues ++ [issue] }

/-- `ValidationReport::add_error`. -/
def ValidationReport.add_error (r : ValidationReport) (code message : String) :
    ValidationReport :=
  r.add_issue ⟨.Error, code, message, none, none⟩

/-- `ValidationReport::add_warning`. -/
def ValidationReport.add_warning (r : ValidationReport) (code message : String) :
    ValidationReport :=
  r.add_issue ⟨.Warning, code, message, none, none⟩

/-- `ValidationReport::merge`: a failing sub-report clears `passed`; issues
are concatenated and metadata entries inserted one by one
(`HashMap::extend`). -/
def ValidationReport.merge (r other : ValidationReport) : ValidationReport :=
  { r with
      passed := if other.passed = false then false else r.passed,
      issues := r.issues ++ other.issues,
      metadata := other.metadata.foldl (fun m kv => alInsert m kv.1 kv.2) r.metadata }

/-! ## Specification-side definitions

The definitions below transcribe the *claims'* wording, to be compared with
the embedded code above. -/

/-- Spec side: the widening pairs enumerated by the casting claim —
`U8→{U16,U32,U64}`, `U16→{U32,U64}`, `U32→U64`, `I8→{I16,I32,I64}`,
`I16→{I32,I64}`, `I32→I64`, `F32→F64`, and
`{U8,U16,U32,I8,I16,I32}→{F32,F64}`. -/
def isWideningPair : OasmType → OasmType → Bool
  | .U8, .U16 | .U8, .U32 | .U8, .U64 => true
  | .U16, .U32 | .U16, .U64 => true
  | .U32, .U64 => true
  | .I8, .I16 | .I8, .I32 | .I8, .I64 => true
  | .I16, .I32 | .I16, .I64 => true
  | .I32, .I64 => true
  | .F32, .F64 => true
  | .U8, .F32 | .U8, .F64 | .U16, .F32 | .U16, .F64 | .U32, .F32 | .U32, .F64 => true
  | .I8, .F32 | .I8, .F64 | .I16, .F32 | .I16, .F64 | .I32, .F32 | .I32, .F64 => true
  | _, _ => false

/-- Spec side: the numeric types actually accepted by the arithmetic
operations (the wider six; `U8`, `U16`, `I8`, `I16` are *not* among them). -/
def arithOperandTypes : List OasmType := [.U32, .U64, .I32, .I64, .F32, .F64]

/-- Spec side: the arithmetic operation mnemonics of the claim. -/
def arithOps : List Operation := [.Add, .Subtract, .Multiply, .Divide, .Modulo]

/-- Spec side: the rules gathered for a program type — the program-type
index entries resolved through the registry (enabled or not). -/
def gatheredRules (e : HierarchicalRuleEngine) (program_type : String) :
    List HierarchicalRule :=
  ((alFind e.program_index program_type).getD []).filterMap (alFind e.rules)

/-- Spec side: the ids named as `overrides` targets by the given rules. -/
def overrideTargets (l : List HierarchicalRule) : List String :=
  l.filterMap (fun hr => hr.overrides)

/-- The `core_max_depth` Core rule of the override-resolution scenario. -/
def exampleCoreRule : HierarchicalRule :=
  ⟨⟨"core_max_depth", "cad", .Constraint, []⟩, .Core, none, .Builtin, true⟩

/-- The `session_max_depth` Session rule overriding `core_max_depth`. -/
def exampleSessionRule : HierarchicalRule :=
  ⟨⟨"session_max_depth", "cad", .Constraint, []⟩, .Session, some "core_max_depth",
   .UserDefined "test_session", true⟩

/-- The engine holding exactly the two scenario rules. -/
def exampleEngine : HierarchicalRuleEngine :=
  register_rule (register_rule HierarchicalRuleEngine.new exampleCoreRule) exampleSessionRule

/-- Spec side: the number of instructions of the batch that complete before
the first failing one under the default registry (`none` when every
instruction succeeds). -/
def completedBeforeError (now : Nat) :
    List Instruction → ExecutionContext → Option Nat
  | [], _ => none
  | instruction :: rest, ctx =>
    match executeInstruction defaultRegistry now instruction ctx with
    | (.ok _, ctx1) => (completedBeforeError now rest ctx1).map (· + 1)
    | (.error _, _) => some 0

/-- Spec side: the update histories a `ValidationReport` may go through —
`add_issue`, `add_error`, `add_warning`, and `merge` of a sub-report that was
itself built from `new` by such a history. -/
inductive ReportOp where
  | addIssue (issue : ValidationIssue)
  | addError (code message : String)
  | addWarning (code message : String)
  | mergeReport (validator : String) (ops : List ReportOp)

mutual
/-- Run one update against a report. -/
def applyOp : ValidationReport → ReportOp → ValidationReport
  | r, .addIssue issue => r.add_issue issue
  | r, .addError code message => r.add_error code message
  | r, .addWarning code message => r.add_warning code message
  | r, .mergeReport validator ops => r.merge (applyOps (ValidationReport.new validator) ops)

/-- Run a history of updates against a report, oldest first. -/
def applyOps : ValidationReport → List ReportOp → ValidationReport
  | r, [] => r
  | r, op :: rest => applyOps (applyOp r op) rest
end

mutual
/-- Spec side: whether an update adds an `Error`-severity issue, directly or
inside a merged sub-report. -/
def opAddsError : ReportOp → Bool
  | .addIssue issue => decide (issue.severity = .Error)
  | .addError _ _ => true
  | .addWarning _ _ => false
  | .mergeReport _ ops => opsAddError ops

/-- Spec side: whether any update of the history adds an `Error` issue. -/
def opsAddError : List ReportOp → Bool
  | [] => false
  | op :: rest => opAddsError op || opsAddError rest
end

/-! ## Concrete fixtures used by witnesses and counterexamples -/

/-- A fresh context: fresh run, `Seq` zero, only the global scope, empty
stores. -/
def ctx0 : ExecutionContext := ExecutionContext.new 0 .System "/" 0

/-- A context whose global scope declares `x : Bool` (no value yet). -/
def ctxWithBoolVar : ExecutionContext :=
  ⟨0, 0, .System, "/", [⟨"global", [("x", ⟨"x", .Bool, none, true⟩)]⟩], [],
   ⟨[("x", ⟨"x", .Variable, .Bool, 0, 0, 0⟩)]⟩, 0⟩

/-! ## Shared lemmas about the association-list operations -/

set_option maxHeartbeats 1000000

theorem alFind_alInsert_self {K V : Type} [DecidableEq K]
    (m : List (K × V)) (k : K) (v : V) : alFind (alInsert m k v) k = some v := by
  induction m with
  | nil => simp [alInsert, alFind]
  | cons kv rest ih =>
    by_cases h : kv.1 = k
    · simp [alInsert, h, alFind]
    · simp [alInsert, h, alFind, ih]

theorem alInsert_of_find_none {K V : Type} [DecidableEq K]
    (m : List (K × V)) (k : K) (v : V) (h : alFind m k = none) :
    alInsert m k v = m ++ [(k, v)] := by
  induction m with
  | nil => simp [alInsert]
  | cons kv rest ih =>
    by_cases hk : kv.1 = k
    · simp [alFind, hk] at h
    · simp [alFind, hk] at h
      simp [alInsert, hk, ih h]

theorem alFind_mem {K V : Type} [DecidableEq K]
    (m : List (K × V)) (k : K) (v : V) (h : alFind m k = some v) : (k, v) ∈ m := by
  induction m with
  | nil => simp [alFind] at h
  | cons kv rest ih =>
    rw [alFind] at h
    by_cases hk : kv.1 = k
    · rw [if_pos hk] at h
      injection h with h2
      have hkv2 : kv = (k, v) := by
        cases kv
        simp_all
      rw [hkv2]
      exact List.mem_cons_self _ _
    · rw [if_neg hk] at h
      exact List.mem_cons_of_mem _ (ih h)

/-! ## Lemmas about the type checker -/

/-- `can_cast` agrees pointwise with "equal, or a spec-enumerated widening
pair". -/
theorem can_cast_eq (a b : OasmType) :
    can_cast a b = (decide (a = b) || isWideningPair a b) := by
  by_cases h : a = b
  · subst h; simp [can_cast]
  · rw [can_cast, if_neg h, decide_eq_false h, Bool.false_or]
    cases a <;> cases b <;> rfl

/-- The arithmetic arm accepts exactly the same-type pairs over the wider six
numeric types, and nothing else. -/
theorem validate_arith_spec (op : Operation) (operands : List OasmType) :
    validate_arith op operands =
      match operands with
      | [a, b] =>
        if a = b ∧ a ∈ arithOperandTypes then .ok a
        else .error (.InvalidOperation op operands)
      | _ => .error (.InvalidOperation op operands) := by
  match operands with
  | [] => rfl
  | [_] => rfl
  | _ :: _ :: _ :: _ => rfl
  | [a, b] =>
    cases a <;> cases b <;> simp [validate_arith, arithOperandTypes]

/-! ## Lemmas about the executor -/

/-- The no-scope-holds-the-name searches of `get_variable` and
`assign_variable` agree. -/
theorem assignInScopesRev_none (name : String) (value : Value)
    (scopes : List Scope) (h : getVarRev name scopes = none) :
    assignInScopesRev name value scopes = none := by
  induction scopes with
  | nil => simp [assignInScopesRev]
  | cons s rest ih =>
    rw [getVarRev] at h
    rw [assignInScopesRev]
    cases hf : alFind s.variables_ name with
    | some v0 => rw [hf] at h; simp at h
    | none =>
      rw [hf] at h
      simp [ih h]

/-- Every `Ok` result of `trivialHandler` has outcome `Success`. -/
theorem trivialHandler_ok (now : Nat) (ops : List Operand) (ctx : ExecutionContext)
    (r : ExecutionResult) (ctx1 : ExecutionContext)
    (h : trivialHandler now ops ctx = (.ok r, ctx1)) : r.outcome = .Success := by
  simp only [trivialHandler, Prod.mk.injEq, Except.ok.injEq] at h
  rw [← h.1]

/-- Every `Ok` result of `extrudeHandler` has outcome `Success`. -/
theorem extrudeHandler_ok (now : Nat) (ops : List Operand) (ctx : ExecutionContext)
    (r : ExecutionResult) (ctx1 : ExecutionContext)
    (h : extrudeHandler now ops ctx = (.ok r, ctx1)) : r.outcome = .Success := by
  rw [extrudeHandler] at h
  split at h
  · simp at h
  · simp only [Prod.mk.injEq, Except.ok.injEq] at h
    rw [← h.1]

/-- Every `Ok` result of `createHandler` has outcome `Success`. -/
theorem createHandler_ok (now : Nat) (ops : List Operand) (ctx : ExecutionContext)
    (r : ExecutionResult) (ctx1 : ExecutionContext)
    (h : createHandler now ops ctx = (.ok r, ctx1)) : r.outcome = .Success := by
  simp only [createHandler] at h
  split at h
  · simp at h
  · split at h
    · simp only [Prod.mk.injEq, Except.ok.injEq] at h
      rw [← h.1]
    · simp at h

/-- Every `Ok` result of `setHandler` has outcome `Success`. -/
theorem setHandler_ok (now : Nat) (ops : List Operand) (ctx : ExecutionContext)
    (r : ExecutionResult) (ctx1 : ExecutionContext)
    (h : setHandler now ops ctx = (.ok r, ctx1)) : r.outcome = .Success := by
  simp only [setHandler] at h
  split at h
  · simp at h
  · split at h
    · split at h
      · split at h
        · simp at h
        · split at h
          · simp at h
          · simp only [Prod.mk.injEq, Except.ok.injEq] at h
            rw [← h.1]
      · simp at h
    · simp at h

/-- When every registered handler only produces `Success` outcomes on `Ok`,
so does dispatch (the unregistered fallback is itself a `Success`). -/
theorem executeInstruction_ok_success (reg : List (String × HandlerFn))
    (hall : ∀ kv ∈ reg, ∀ now ops ctx r ctx1,
      kv.2 now ops ctx = (.ok r, ctx1) → r.outcome = .Success)
    (now : Nat) (instruction : Instruction) (ctx : ExecutionContext)
    (r : ExecutionResult) (ctx1 : ExecutionContext)
    (h : executeInstruction reg now instruction ctx = (.ok r, ctx1)) :
    r.outcome = .Success := by
  rw [executeInstruction] at h
  cases hreg : registryGet reg instruction.mnemonic with
  | none =>
    rw [hreg] at h
    simp only [Prod.mk.injEq, Except.ok.injEq] at h
    rw [← h.1]
  | some handler =>
    rw [hreg] at h
    have hmem := alFind_mem _ _ _ hreg
    exact hall _ hmem now instruction.operands ctx r ctx1 h

/-- All ten built-in handlers only produce `Success` outcomes on `Ok`. -/
theorem defaultRegistry_all_success :
    ∀ kv ∈ defaultRegistry, ∀ now ops ctx r ctx1,
      kv.2 now ops ctx = (.ok r, ctx1) → r.outcome = .Success := by
  intro kv hkv
  have hreg : defaultRegistry =
      [("CREATE", createHandler), ("SET", setHandler), ("EXTRUDE", extrudeHandler),
       ("FILLET", trivialHandler), ("MOVE", trivialHandler), ("ROTATE", trivialHandler),
       ("SCALE", trivialHandler), ("BOOLEAN", trivialHandler),
       ("VALIDATE", trivialHandler), ("EXPORT", trivialHandler)] := by rfl
  rw [hreg] at hkv
  fin_cases hkv
  · exact createHandler_ok
  · exact setHandler_ok
  · exact extrudeHandler_ok
  all_goals exact trivialHandler_ok

/-- The batch loop's result list is as long as its `completed` counter, and
the counter matches the position of the first failing instruction. -/
theorem batchLoop_spec (now : Nat) (instructions : List Instruction)
    (ctx : ExecutionContext) :
    (batchLoop defaultRegistry now instructions ctx).1.length =
      (batchLoop defaultRegistry now instructions ctx).2.1 ∧
    (match completedBeforeError now instructions ctx with
     | none => (batchLoop defaultRegistry now instructions ctx).2.1 = instructions.length
     | some k => (batchLoop defaultRegistry now instructions ctx).2.1 = k ∧
                 k < instructions.length) := by
  induction instructions generalizing ctx with
  | nil => simp [batchLoop, completedBeforeError]
  | cons instruction rest ih =>
    rw [batchLoop, completedBeforeError]
    cases hexec : executeInstruction defaultRegistry now instruction ctx with
    | mk res ctx1 =>
      cases res with
      | ok r =>
        have hr : r.outcome = .Success :=
          executeInstruction_ok_success defaultRegistry defaultRegistry_all_success
            now instruction ctx r ctx1 hexec
        obtain ⟨ih1, ih2⟩ := ih ctx1
        cases hc : completedBeforeError now rest ctx1 with
        | none =>
          rw [hc] at ih2
          refine ⟨by simp [batchLoop, hexec, ih1, hr]; omega, ?_⟩
          simp [batchLoop, completedBeforeError, hexec, hc, hr]
          omega
        | some k =>
          rw [hc] at ih2
          refine ⟨by simp [batchLoop, hexec, ih1, hr]; omega, ?_⟩
          simp [batchLoop, completedBeforeError, hexec, hc, hr]
          omega
      | error e =>
        simp [batchLoop, completedBeforeError, hexec]

/-! ## Lemmas about the rule engine comparator -/

theorem levelDescBool_trans (a b c : HierarchicalRule)
    (h1 : levelDescBool a b = true) (h2 : levelDescBool b c = true) :
    levelDescBool a c = true := by
  simp [levelDescBool] at *
  omega

theorem levelDescBool_total (a b : HierarchicalRule) :
    (levelDescBool a b || levelDescBool b a) = true := by
  simp [levelDescBool]
  omega

/-! ## Lemmas about validation-report histories -/

mutual
/-- One update clears `passed` exactly when it adds an error. -/
theorem applyOp_passed (r : ValidationReport) (op : ReportOp) :
    (applyOp r op).passed = (r.passed && !opAddsError op) := by
  match op with
  | .addIssue issue =>
    simp only [applyOp, ValidationReport.add_issue, opAddsError]
    by_cases h : issue.severity = .Error <;> simp [h]
  | .addError code message =>
    simp [applyOp, ValidationReport.add_error, ValidationReport.add_issue, opAddsError]
  | .addWarning code message =>
    simp [applyOp, ValidationReport.add_warning, ValidationReport.add_issue, opAddsError]
  | .mergeReport validator ops =>
    have ih := applyOps_passed (ValidationReport.new validator) ops
    have hsub : (applyOps (ValidationReport.new validator) ops).passed =
        !opsAddError ops := by
      rw [ih]; simp [ValidationReport.new]
    simp only [applyOp, ValidationReport.merge, opAddsError, hsub]
    cases hx : opsAddError ops <;> cases hr : r.passed <;> simp [hr]

/-- A history of updates clears `passed` exactly when some update adds an
error. -/
theorem applyOps_passed (r : ValidationReport) (ops : List ReportOp) :
    (applyOps r ops).passed = (r.passed && !opsAddError ops) := by
  match ops with
  | [] => simp [applyOps, opsAddError]
  | op :: rest =>
    have ih1 := applyOp_passed r op
    have ih2 := applyOps_passed (applyOp r op) rest
    simp only [applyOps, opsAddError, ih2, ih1, Bool.not_or, Bool.and_assoc]
end

/-! ## The claims -/

/-- C1 (corrected), counterexample: the claim says `validate_operation(Add,
[U8, U8])` returns `Ok(U8)` because `U8` is a numeric type; the code rejects
the pair with `InvalidOperation` — only the six wider numeric types are
accepted by the arithmetic arm. -/
theorem validate_operation_arith_u8_counterexample :
    validate_operation .Add [.U8, .U8] =
      .error (.InvalidOperation .Add [.U8, .U8]) ∧
    validate_operation .Add [.U8, .U8] ≠ .ok .U8 :=
  ⟨rfl, by simp [validate_operation, validate_arith]⟩

/-- C1 (corrected), amended claim: for every arithmetic operation, the
operand list `[T, T]` with `T ∈ {U32, U64, I32, I64, F32, F64}` validates to
`Ok(T)`, and every other operand list yields `Err(InvalidOperation)` —
`U8`, `U16`, `I8`, `I16` are excluded. -/
theorem validate_operation_arith_characterization (op : Operation)
    (hop : op ∈ arithOps) (operands : List OasmType) :
    validate_operation op operands =
      match operands with
      | [a, b] =>
        if a = b ∧ a ∈ arithOperandTypes then .ok a
        else .error (.InvalidOperation op operands)
      | _ => .error (.InvalidOperation op operands) := by
  have key := validate_arith_spec op operands
  fin_cases hop <;> simpa [validate_operation] using key

/-- C1 witness: the amended claim applied at `Add` on `[U32, U32]`. -/
theorem validate_operation_arith_witness :
    Operation.Add ∈ arithOps ∧
    validate_operation .Add [.U32, .U32] = .ok .U32 :=
  ⟨by decide, by
    simpa [arithOperandTypes] using
      validate_operation_arith_characterization .Add (by decide) [.U32, .U32]⟩

/-- C2 (confirmed): `can_cast a b` holds iff `a = b` or `(a, b)` is one of
the enumerated widening pairs; in particular `U8→U32` and `U32→F64` cast,
`Bool→U32` and `F64→F32` do not. -/
theorem can_cast_characterization (a b : OasmType) :
    (can_cast a b = true ↔ (a = b ∨ isWideningPair a b = true)) ∧
    can_cast .U8 .U32 = true ∧ can_cast .Bool .U32 = false ∧
    can_cast .U32 .F64 = true ∧ can_cast .F64 .F32 = false := by
  refine ⟨?_, by decide, by decide, by decide, by decide⟩
  rw [can_cast_eq]
  simp

/-- C3 (confirmed): `execute_batch` always returns `Ok` (the triggering error
is discarded); when every instruction of the sequential run succeeds the
outcome is `Success` with one individual result per instruction, and
otherwise the loop stops at the first failing instruction and the outcome is
`PartialSuccess{completed, total}` with `completed` the number of
instructions finished before the failure. -/
theorem execute_batch_stops_at_first_error (now : Nat)
    (instructions : List Instruction) (ctx : ExecutionContext) :
    ∃ br ctx1,
      execute_batch defaultRegistry now instructions ctx = (.ok br, ctx1) ∧
      (match completedBeforeError now instructions ctx with
       | none => br.outcome = .Success ∧
                 br.individual_results.length = instructions.length
       | some k => br.outcome = .PartialSuccess k instructions.length ∧
                   br.individual_results.length = k ∧ k < instructions.length) := by
  obtain ⟨h1, h2⟩ := batchLoop_spec now instructions ctx
  cases hc : completedBeforeError now instructions ctx with
  | none =>
    rw [hc] at h2
    refine ⟨⟨.Success, (batchLoop defaultRegistry now instructions ctx).1, 0⟩,
      (batchLoop defaultRegistry now instructions ctx).2.2, ?_, ?_⟩
    · simp only [execute_batch]
      rw [if_pos h2]
    · exact ⟨rfl, by rw [h1, h2]⟩
  | some k =>
    rw [hc] at h2
    obtain ⟨hk, hklt⟩ := h2
    refine ⟨⟨.PartialSuccess k instructions.length,
      (batchLoop defaultRegistry now instructions ctx).1, 0⟩,
      (batchLoop defaultRegistry now instructions ctx).2.2, ?_, ?_⟩
    · simp only [execute_batch]
      rw [if_neg (by omega), hk]
    · exact ⟨rfl, by rw [h1, hk], hklt⟩

/-- C4 (confirmed): `get_resolved_rules` returns exactly the enabled rules of
the program type whose id is not an `overrides` target of any gathered
enabled rule, in level-descending order; and the Core/Session
`core_max_depth`/`session_max_depth` scenario resolves to exactly the session
rule. -/
theorem get_resolved_rules_characterization (e : HierarchicalRuleEngine)
    (program_type : String) (r : HierarchicalRule) :
    (r ∈ get_resolved_rules e program_type ↔
      (r ∈ gatheredRules e program_type ∧ r.enabled = true ∧
       r.rule.id ∉ overrideTargets
         ((gatheredRules e program_type).filter (fun hr => hr.enabled)))) ∧
    List.Sorted (fun a b : HierarchicalRule => b.level.priority ≤ a.level.priority)
      (get_resolved_rules e program_type) ∧
    get_resolved_rules exampleEngine "cad" = [exampleSessionRule] := by
  refine ⟨?_, ?_, by
    simp [get_resolved_rules, exampleEngine, register_rule, HierarchicalRuleEngine.new,
      alInsert, alFind, exampleCoreRule, exampleSessionRule, List.mergeSort,
      levelDescBool, RuleLevel.priority]⟩
  · unfold get_resolved_rules gatheredRules overrideTargets
    cases hfind : alFind e.program_index program_type with
    | none => simp
    | some ids =>
      simp only [Option.getD_some]
      rw [List.mem_filter, List.mem_mergeSort, List.mem_filter]
      constructor
      · rintro ⟨⟨hmem, hen⟩, hover⟩
        refine ⟨hmem, hen, ?_⟩
        intro hcontra
        rw [List.mem_filterMap] at hcontra
        obtain ⟨x, hx, hxov⟩ := hcontra
        have hmem2 : r.rule.id ∈ (((ids.filterMap (alFind e.rules)).filter
            (fun hr => hr.enabled)).mergeSort levelDescBool).filterMap
            (fun hr => hr.overrides) := by
          rw [List.mem_filterMap]
          exact ⟨x, by rw [List.mem_mergeSort]; exact hx, hxov⟩
        simp [List.contains, List.elem_iff, hmem2] at hover
      · rintro ⟨hmem, hen, hover⟩
        refine ⟨⟨hmem, hen⟩, ?_⟩
        have hnot : r.rule.id ∉ (((ids.filterMap (alFind e.rules)).filter
            (fun hr => hr.enabled)).mergeSort levelDescBool).filterMap
            (fun hr => hr.overrides) := by
          intro hcontra
          rw [List.mem_filterMap] at hcontra
          obtain ⟨x, hx, hxov⟩ := hcontra
          rw [List.mem_mergeSort] at hx
          exact hover (List.mem_filterMap.mpr ⟨x, hx, hxov⟩)
        simp [List.contains, List.elem_iff, hnot]
  · unfold get_resolved_rules
    cases hfind : alFind e.program_index program_type with
    | none => exact List.sorted_nil
    | some ids =>
      apply List.Sorted.filter
      have hp := @List.sorted_mergeSort HierarchicalRule levelDescBool
        levelDescBool_trans levelDescBool_total
        ((ids.filterMap (alFind e.rules)).filter (fun hr => hr.enabled))
      exact hp.imp (fun hab => by simpa [levelDescBool] using hab)

/-- C5 (corrected), counterexample: the claim says a `SET` whose target was
never declared succeeds and stores the value; on a fresh context the code
instead fails with the `VariableNotFound` context error raised by
`assign_variable`. -/
theorem set_missing_target_counterexample :
    (setHandler 0 [.Assignment "x" (.Literal (.U32 5))] ctx0).1 =
      .error (.ContextError (.VariableNotFound "x")) := rfl

/-- C5 (corrected), amended claim: when the target of a `SET` assignment does
not exist in any scope the type check is indeed skipped, but the following
`assign_variable` fails with `VariableNotFound`, so `SET` errors (wrapped as
a `ContextError`) and the context is left unchanged — nothing is stored. -/
theorem set_missing_target_fails_unchecked (now : Nat) (ctx : ExecutionContext)
    (target : String) (v : Value) (rest : List Operand)
    (h : get_variable ctx target = .error (.VariableNotFound target)) :
    setHandler now (.Assignment target (.Literal v) :: rest) ctx =
      (.error (.ContextError (.VariableNotFound target)), ctx) := by
  have hnone : getVarRev target ctx.scope_stack.reverse = none := by
    unfold get_variable at h
    cases hg : getVarRev target ctx.scope_stack.reverse with
    | some v0 => rw [hg] at h; simp at h
    | none => rfl
  have hassign : assignInScopesRev target v ctx.scope_stack.reverse = none :=
    assignInScopesRev_none _ _ _ hnone
  unfold setHandler
  simp only [get_variable, hnone, assign_variable, hassign]

/-- C5 witness: the amended claim applied on the fresh context. -/
theorem set_missing_target_witness :
    setHandler 0 [.Assignment "x" (.Literal (.U32 5))] ctx0 =
      (.error (.ContextError (.VariableNotFound "x")), ctx0) :=
  set_missing_target_fails_unchecked 0 ctx0 "x" (.U32 5) [] rfl

/-- C6 (corrected), counterexample: the claim says CREATE fails
`InvalidInstruction` for every operand list that is not exactly one
identifier; the code accepts `[Identifier "box", Identifier "junk"]`,
silently ignoring the extra operand. -/
theorem create_extra_operands_counterexample :
    (createHandler 0 [.Identifier "box", .Identifier "junk"] ctx0).1 =
      .ok ⟨.Success, some (.String "box_0000"), ["box_0000"], 0⟩ := rfl

/-- C6 (corrected), amended claim: CREATE fails `InvalidInstruction` exactly
when the operand list is empty or its *first* operand is not an identifier
(operands beyond the first are ignored); with an identifier first it
allocates the object, advances `Seq`, and returns the new id as the output
and the sole modified object. -/
theorem create_handler_characterization (now : Nat) (ctx : ExecutionContext)
    (name : String) (rest : List Operand) :
    (∃ oid,
        createHandler now (.Identifier name :: rest) ctx =
          (.ok ⟨.Success, some (.String oid), [oid], 0⟩,
           next_seq (create_object ctx name none now).2) ∧
        alFind (next_seq (create_object ctx name none now).2).objects oid =
          some ⟨oid, name, [], now⟩ ∧
        (next_seq (create_object ctx name none now).2).seq = ctx.seq + 1) ∧
    (createHandler now [] ctx).1 =
      .error (.InvalidInstruction "CREATE" "Missing object type") ∧
    (∀ op rest2, (∀ n, op ≠ Operand.Identifier n) →
      (createHandler now (op :: rest2) ctx).1 =
        .error (.InvalidInstruction "CREATE" "Expected identifier")) := by
  refine ⟨⟨(create_object ctx name none now).1, rfl, ?_, rfl⟩, rfl, ?_⟩
  · exact alFind_alInsert_self ctx.objects _ _
  · intro op rest2 hop
    cases op with
    | Identifier n => exact absurd rfl (hop n)
    | Literal v => rfl
    | Property o p => rfl
    | Array es => rfl
    | Assignment t v => rfl

/-- C6 witness: the amended claim's failure branch applied to a property
operand. -/
theorem create_handler_witness :
    (createHandler 0 (.Property "a" "b" :: []) ctx0).1 =
      .error (.InvalidInstruction "CREATE" "Expected identifier") :=
  (create_handler_characterization 0 ctx0 "box" []).2.2 (.Property "a" "b") []
    (fun n h => by cases h)

/-- C7 (corrected), counterexample: two `create_object` calls with the same
explicit id leave a single object in the store — the second call replaces
the first (`box` is gone, `sphere` remains), so `create_object` does not
enforce id uniqueness. -/
theorem create_object_collision_counterexample :
    (create_object (create_object ctx0 "box" (some "a") 0).2 "sphere"
        (some "a") 0).2.objects =
      [("a", ⟨"a", "sphere", [], 0⟩)] := rfl

/-- C7 (corrected), amended claim: `create_object` inserts the object at its
id (explicit, or generated as `{type}_{seq:04}`); when that id is not already
in the store the call exactly extends the store by the new object — no
existing object is touched — but a colliding id replaces the stored object,
so uniqueness holds only when callers never reuse an id and advance `Seq`
between generated ids. -/
theorem create_object_fresh_id_extends_store (ctx : ExecutionContext)
    (object_type : String) (id : Option String) (now : Nat)
    (h : alFind ctx.objects (id.getD (object_type ++ "_" ++ pad4 ctx.seq)) = none) :
    (create_object ctx object_type id now).1 =
      id.getD (object_type ++ "_" ++ pad4 ctx.seq) ∧
    (create_object ctx object_type id now).2.objects =
      ctx.objects ++ [((create_object ctx object_type id now).1,
        ⟨(create_object ctx object_type id now).1, object_type, [], now⟩)] ∧
    (create_object ctx object_type id now).2.objects.length =
      ctx.objects.length + 1 := by
  refine ⟨rfl, ?_, ?_⟩
  · show alInsert ctx.objects _ _ = _
    rw [alInsert_of_find_none _ _ _ h]
    rfl
  · show (alInsert ctx.objects _ _).length = _
    rw [alInsert_of_find_none _ _ _ h]
    simp

/-- C7 witness: a fresh generated id on the empty store. -/
theorem create_object_fresh_id_witness :
    (create_object ctx0 "box" none 0).2.objects =
      [("box_0000", ⟨"box_0000", "box", [], 0⟩)] := by
  have hyp := (create_object_fresh_id_extends_store ctx0 "box" none 0 (by rfl)).2.1
  simpa [ctx0, ExecutionContext.new] using hyp

/-- C8 (confirmed): when the `SET` target exists and `check_assignment`
rejects the literal's inferred type, the handler returns the `TypeError` and
the returned context is the input context itself — no variable value, no
symbol-table entry and no `Seq` advance. -/
theorem set_type_failure_leaves_context_unchanged (now : Nat)
    (ctx : ExecutionContext) (target : String) (v : Value) (rest : List Operand)
    (var : Variable) (err : TypeError)
    (hvar : get_variable ctx target = .ok var)
    (herr : check_assignment var.var_type (infer_type v) = .error err) :
    setHandler now (.Assignment target (.Literal v) :: rest) ctx =
      (.error (.TypeError target err), ctx) := by
  unfold setHandler
  simp only [hvar, herr]

/-- C8 witness: assigning `U32 5` to the declared `x : Bool`. -/
theorem set_type_failure_witness :
    setHandler 0 [.Assignment "x" (.Literal (.U32 5))] ctxWithBoolVar =
      (.error (.TypeError "x" (.TypeMismatch .Bool .U32)), ctxWithBoolVar) :=
  set_type_failure_leaves_context_unchanged 0 ctxWithBoolVar "x" (.U32 5) []
    ⟨"x", .Bool, none, true⟩ (.TypeMismatch .Bool .U32) rfl rfl

/-- C9 (confirmed): an instruction whose uppercased mnemonic has no
registered handler succeeds trivially — outcome `Success`, no output, no
modified objects, duration 0, context untouched. -/
theorem unregistered_mnemonic_trivial_success (now : Nat)
    (instruction : Instruction) (ctx : ExecutionContext)
    (h : registryGet defaultRegistry instruction.mnemonic = none) :
    executeInstruction defaultRegistry now instruction ctx =
      (.ok ⟨.Success, none, [], 0⟩, ctx) := by
  unfold executeInstruction
  rw [h]

/-- C9 witness: the mnemonic `frobnicate` is unregistered. -/
theorem unregistered_mnemonic_witness :
    executeInstruction defaultRegistry 0 ⟨"frobnicate", [], 1⟩ ctx0 =
      (.ok ⟨.Success, none, [], 0⟩, ctx0) :=
  unregistered_mnemonic_trivial_success 0 ⟨"frobnicate", [], 1⟩ ctx0 (by rfl)

/-- C10 (confirmed): a report built with `new` and updated only through
`add_issue`, `add_error`, `add_warning` and `merge` has `passed = false` iff
some update added an `Error`-severity issue, directly or inside a merged
sub-report; warnings and infos never clear `passed`. -/
theorem validation_report_passed_iff_no_error (validator : String)
    (ops : List ReportOp) :
    (applyOps (ValidationReport.new validator) ops).passed = false ↔
      opsAddError ops = true := by
  rw [applyOps_passed]
  simp [ValidationReport.new]

end Oasm
